import Mathlib

/-!
Verification of `project_snapshot_cli.py` (repository `dane-git/project-snapshot`).

This file shallowly embeds the core of the tool — the binary sniffer
(`looks_binary`), the bounded file reader (`read_text_safely`), the path
filter (`include_pred`, split here into `include_dir` / `include_file`),
the gitignore-style glob matcher (`fnmatch`), the ASCII tree renderer
(`dir_tree_ascii`) and the snapshot assembler (`build_snapshot`) — as
executable Lean definitions, and proves the specified properties about them.

Modelling conventions:
* text is `List Char`; byte strings are `List Nat` (each element < 256);
* the filesystem is an explicit tree (`FSTree`); a file carries its byte
  content and a `readable` flag (false models any I/O failure on read:
  the source wraps every read in `try/except`);
* Python's float comparison `nontext_ratio > 0.30` is embedded as the exact
  rational comparison `10 * highCount > 3 * length` (0.30 = 3/10); the two
  can differ only for samples of ~10^15 bytes where double rounding of the
  quotient matters, far beyond any real input;
* `str.lower()` is embedded as ASCII lowering (`Char.toLower`); all paths and
  contents in the specified scenarios are ASCII;
* Python's `str.splitlines` boundaries (\n, \r, \r\n, \x0b, \x0c, \x1c,
  \x1d, \x1e, \x85, U+2028, U+2029) are embedded in full;
* `bytes.decode("utf-8", errors="replace")` is embedded by `decodeU8`, a
  total UTF-8 decoder emitting U+FFFD for each maximal invalid subpart.
-/

namespace Snapshot

/-- Text is represented as a list of characters. -/
abbrev Text := List Char

/-- A path relative to the scan root, as a list of name segments. -/
abbrev PathT := List Text

/-- Coerce a Lean string literal to the `Text` representation. -/
def strL (s : String) : Text := s.data

/-- Decimal representation of a natural number (Python `str(n)` / f-string). -/
def natStr (n : Nat) : Text := Nat.toDigits 10 n

/-- ASCII lowering of a character, embedding Python `str.lower()` for the
ASCII inputs used throughout (extensions, path names). -/
def toLowerT (t : Text) : Text := t.map Char.toLower

/-- `"/".join`-style join of path segments, i.e. `str(p.relative_to(root))`. -/
def relStr (p : PathT) : Text := List.intercalate (strL "/") p

/-- `p.name`: the base name (last segment) of a path. -/
def baseName (p : PathT) : Text := p.getLast?.getD []

/-- `Path.suffix` (CPython `pathlib`): the extension of the base name,
including the dot; empty when the name has no dot, starts with its only
dot, or ends with the dot (`name[i:]` for `0 < i < len(name) - 1` where
`i = name.rfind('.')`). -/
def rfindDot : Text → Option Nat
  | [] => none
  | c :: rest =>
    match rfindDot rest with
    | some i => some (i + 1)
    | none => if c = '.' then some 0 else none

/-- `Path(name).suffix` for a base name. -/
def pySuffix (name : Text) : Text :=
  match rfindDot name with
  | some i => if 0 < i ∧ i + 1 < name.length then name.drop i else []
  | none => []

/-! ## Binary Sniffer (`looks_binary`, source lines 159–166) -/

/-- `looks_binary(sample)`: empty → not binary; any NUL byte → binary;
otherwise binary iff the fraction of bytes above 0x7F strictly exceeds
0.30 (embedded exactly as `10 * highCount > 3 * length`). -/
def looks_binary (sample : List Nat) : Bool :=
  if sample.isEmpty then false
  else if sample.contains 0 then true
  else decide (3 * sample.length < 10 * sample.countP (fun ch => decide (0x7F < ch)))

/-! ## UTF-8 lossy decoding (`bytes.decode("utf-8", errors="replace")`) -/

/-- The replacement character U+FFFD. -/
def repl : Char := Char.ofNat 0xFFFD

/-- A UTF-8 continuation byte. -/
def isCont (b : Nat) : Bool := 0x80 ≤ b && b ≤ 0xBF

/-- Valid first continuation byte after leading byte `b` (restricted ranges
for 0xE0/0xED/0xF0/0xF4 rule out overlong forms, surrogates, > U+10FFFF). -/
def cont1ok (b b1 : Nat) : Bool :=
  if b = 0xE0 then 0xA0 ≤ b1 && b1 ≤ 0xBF
  else if b = 0xED then 0x80 ≤ b1 && b1 ≤ 0x9F
  else if b = 0xF0 then 0x90 ≤ b1 && b1 ≤ 0xBF
  else if b = 0xF4 then 0x80 ≤ b1 && b1 ≤ 0x8F
  else isCont b1

/-- Decoder state: `none` between characters, or
`some (lead, val, need, first)` inside a multi-byte sequence whose leading
byte was `lead`, with accumulated value `val`, `need` continuation bytes
still expected, and `first` marking that the next continuation is the first
one (subject to the lead-restricted range). -/
abbrev U8State := Option (Nat × Nat × Nat × Bool)

/-- One-byte-at-a-time UTF-8 decoding with replacement. On an invalid byte
inside a sequence, one U+FFFD is emitted for the maximal subpart consumed
so far and the offending byte is then handled as a fresh leading byte
(inlined idle step), per CPython's `errors="replace"` policy. -/
def decodeU8Go (st : U8State) : List Nat → List Char
  | [] =>
    match st with
    | none => []
    | some _ => [repl]
  | b :: rest =>
    match st with
    | none =>
      if b < 0x80 then Char.ofNat b :: decodeU8Go none rest
      else if 0xC2 ≤ b && b ≤ 0xDF then decodeU8Go (some (b, b - 0xC0, 1, true)) rest
      else if 0xE0 ≤ b && b ≤ 0xEF then decodeU8Go (some (b, b - 0xE0, 2, true)) rest
      else if 0xF0 ≤ b && b ≤ 0xF4 then decodeU8Go (some (b, b - 0xF0, 3, true)) rest
      else repl :: decodeU8Go none rest
    | some (lead, val, need, first) =>
      if (if first then cont1ok lead b else isCont b) then
        if need = 1 then Char.ofNat (val * 0x40 + (b - 0x80)) :: decodeU8Go none rest
        else decodeU8Go (some (lead, val * 0x40 + (b - 0x80), need - 1, false)) rest
      else
        repl ::
          (if b < 0x80 then Char.ofNat b :: decodeU8Go none rest
           else if 0xC2 ≤ b && b ≤ 0xDF then decodeU8Go (some (b, b - 0xC0, 1, true)) rest
           else if 0xE0 ≤ b && b ≤ 0xEF then decodeU8Go (some (b, b - 0xE0, 2, true)) rest
           else if 0xF0 ≤ b && b ≤ 0xF4 then decodeU8Go (some (b, b - 0xF0, 3, true)) rest
           else repl :: decodeU8Go none rest)

/-- Total UTF-8 decoder with replacement, embedding
`bytes.decode("utf-8", errors="replace")`. -/
def decodeU8 (bs : List Nat) : List Char := decodeU8Go none bs

/-! ## Python string helpers used by the assembler -/

/-- A character at which `str.splitlines` breaks (full CPython set). -/
def isLineBreak (c : Char) : Bool :=
  c = '\n' || c = '\r' || c.val = 0x0B || c.val = 0x0C || c.val = 0x1C ||
    c.val = 0x1D || c.val = 0x1E || c.val = 0x85 || c.val = 0x2028 || c.val = 0x2029

/-- Worker for `splitlines`; `acc` is the current (reversed) line. -/
def splitlinesAux : List Char → List Char → List Text
  | [], acc => if acc.isEmpty then [] else [acc.reverse]
  | '\r' :: '\n' :: rest, acc => acc.reverse :: splitlinesAux rest []
  | c :: rest, acc =>
    if isLineBreak c then acc.reverse :: splitlinesAux rest []
    else splitlinesAux rest (c :: acc)

/-- `text.splitlines()`. -/
def splitlines (t : Text) : List Text := splitlinesAux t []

/-- `"\n".join(lines)`. -/
def joinNL (lines : List Text) : Text := List.intercalate (strL "\n") lines

/-- `text.strip("\n")`: remove newline characters from both ends. -/
def stripNL (t : Text) : Text :=
  ((t.dropWhile (fun c => c = '\n')).reverse.dropWhile (fun c => c = '\n')).reverse

/-! ## Shell-style glob matching (`fnmatch.fnmatch`, POSIX: no case folding) -/

/-- Scan up to the closing `]` of a character class: returns the class
contents and the remainder of the pattern, or `none` when unclosed. -/
def spanClose : List Char → Option (List Char × List Char)
  | [] => none
  | c :: t =>
    if c = ']' then some ([], t)
    else (spanClose t).map (fun pr => (c :: pr.1, pr.2))

/-- Parse a character class right after `[`: handles the leading `!`
(negation) and a literal `]` first in the set, as `fnmatch.translate` does.
Returns `(negated, set, rest-of-pattern)`, or `none` when the class is
unclosed (then `[` is a literal). -/
def classParse (ps : List Char) : Option (Bool × List Char × List Char) :=
  match ps with
  | [] => none
  | c :: t =>
    if c = '!' then
      match t with
      | [] => none
      | c2 :: t2 =>
        if c2 = ']' then (spanClose t2).map (fun pr => (true, ']' :: pr.1, pr.2))
        else (spanClose t).map (fun pr => (true, pr.1, pr.2))
    else
      if c = ']' then (spanClose t).map (fun pr => (false, ']' :: pr.1, pr.2))
      else (spanClose (c :: t)).map (fun pr => (false, pr.1, pr.2))

theorem spanClose_len : ∀ {l cs r : List Char}, spanClose l = some (cs, r) →
    r.length < l.length := by
  intro l
  induction l with
  | nil => intro cs r h; simp [spanClose] at h
  | cons c t ih =>
    intro cs r h
    simp only [spanClose] at h
    split at h
    · cases h
      simp only [List.length_cons]
      omega
    · rcases Option.map_eq_some'.mp h with ⟨⟨a, b⟩, hpr, hval⟩
      have := ih hpr
      cases hval
      simp only [List.length_cons]
      omega

theorem classParse_len : ∀ {ps : List Char} {n : Bool} {s r : List Char},
    classParse ps = some (n, s, r) → r.length < ps.length := by
  intro ps n s r h
  unfold classParse at h
  repeat' split at h
  all_goals try exact Option.noConfusion h
  all_goals
    rcases Option.map_eq_some'.mp h with ⟨⟨a, b⟩, hpr, hval⟩
  all_goals
    have hlt := spanClose_len hpr
  all_goals cases hval
  all_goals simp only [List.length_cons] at *
  all_goals omega

/-- Membership in a character-class set with `a-b` ranges (dash at either
end is literal), per the regex `fnmatch.translate` produces. -/
def matchSet : List Char → Char → Bool
  | [], _ => false
  | [a], c => a = c
  | [a, b], c => a = c || b = c
  | a :: '-' :: b :: rest, c => (decide (a ≤ c) && decide (c ≤ b)) || matchSet rest c
  | a :: rest, c => a = c || matchSet rest c

/-- `fnmatch.fnmatch(s, pattern)` on POSIX: `*` matches any sequence
(including `/`), `?` any single character, `[...]` a character class;
everything else is literal. The whole string must match. -/
def globMatch : List Char → List Char → Bool
  | [], [] => true
  | [], _ :: _ => false
  | '*' :: ps, s =>
    globMatch ps s ||
      (match s with
       | [] => false
       | _ :: s' => globMatch ('*' :: ps) s')
  | '?' :: ps, _ :: s' => globMatch ps s'
  | '?' :: _, [] => false
  | '[' :: ps, s =>
    (match h : classParse ps with
     | some (neg, set, rest) =>
       (match s with
        | [] => false
        | c :: s' => (matchSet set c != neg) && globMatch rest s')
     | none =>
       (match s with
        | [] => false
        | c :: s' => (c = '[') && globMatch ps s'))
  | p :: ps, c :: s' => (p = c) && globMatch ps s'
  | _ :: _, [] => false
termination_by p s => p.length + s.length
decreasing_by
  all_goals simp [List.length_cons]
  all_goals try omega
  all_goals have hcl := classParse_len h
  all_goals omega

/-- `matches_any_glob(relpath, globs)` (source lines 205–206). -/
def matches_any_glob (rel : Text) (globs : List Text) : Bool :=
  globs.any (fun pat => globMatch pat rel)

/-! ## Options and the Path Filter (`include_pred`, source lines 257–269) -/

/-- The configuration captured by `build_snapshot`'s `include_pred` closure,
resolved once per run. `gitignore_pats` holds the lines loaded by
`apply_gitignore_patterns` when `respect_gitignore` was set (empty list
otherwise, which also models the flag being off). -/
structure Opts where
  include_exts : List Text
  exclude_dirs : List Text
  exclude_files : List Text
  include_globs : List Text
  exclude_globs : List Text
  gitignore_pats : List Text
  max_bytes : Nat
  head_lines : Nat
  tail_lines : Nat
  show_stats : Bool

/-- `set(x.lower() for x in include_exts)` (source line 243; membership test
on a list models the set). -/
def lowerExts (o : Opts) : List Text := o.include_exts.map toLowerT

/-- `name.startswith(".")`. -/
def startsWithDot : Text → Bool
  | '.' :: _ => true
  | _ => false

/-- The directory branch of `include_pred` (source line 259), which is also
the pruning predicate of the `os.walk` loop (source line 278). -/
def include_dir (o : Opts) (name : Text) : Bool :=
  !(o.exclude_dirs.contains name) && !(startsWithDot name)

/-- The file branch of `include_pred` (source lines 260–269). -/
def include_file (o : Opts) (p : PathT) : Bool :=
  let rel := relStr p
  if !o.exclude_globs.isEmpty && matches_any_glob rel o.exclude_globs then false
  else if !o.gitignore_pats.isEmpty && matches_any_glob rel o.gitignore_pats then false
  else if !o.include_globs.isEmpty && !(matches_any_glob rel o.include_globs) then false
  else if o.exclude_files.contains (baseName p) then false
  else (lowerExts o).contains (toLowerT (pySuffix (baseName p)))

/-! ## Filesystem model -/

/-- A filesystem entry: a file with byte content and a readability flag
(`readable = false` models any I/O failure while reading it), or a
directory with its children in on-disk iteration order. -/
inductive FSTree where
  | file (name : Text) (content : List Nat) (readable : Bool)
  | dir (name : Text) (children : List FSTree)

/-- The base name of an entry. -/
def nameOf : FSTree → Text
  | .file n _ _ => n
  | .dir n _ => n

/-- `p.is_dir()`. -/
def isDirT : FSTree → Bool
  | .file _ _ _ => false
  | .dir _ _ => true

mutual
/-- Resolve a root-relative path to a file's `(content, readable)` among a
directory's children; `none` models a vanished path (`stat`/`open` raising). -/
def lookupIn : List FSTree → PathT → Option (List Nat × Bool)
  | [], _ => none
  | e :: rest, p =>
    match lookupEntry e p with
    | some res => some res
    | none => lookupIn rest p

/-- Resolve a root-relative path against one entry. -/
def lookupEntry : FSTree → PathT → Option (List Nat × Bool)
  | FSTree.file n c r, p => if p = [n] then some (c, r) else none
  | FSTree.dir n cs, p =>
    match p with
    | [] => none
    | s :: ss => if s = n ∧ ss ≠ [] then lookupIn cs ss else none
end

/-! ## File Reader (`read_text_safely`, source lines 169–190) -/

/-- `read_text_safely(path, max_bytes)`, returning
`(text, truncated, binary_skipped)`. The `entry` argument is the file found
at the path (`none`, or `readable = false`, model the `try` block raising:
any I/O failure yields `("", False, True)`). -/
def read_text_safely (entry : Option (List Nat × Bool)) (max_bytes : Nat) :
    Text × Bool × Bool :=
  match entry with
  | none => ([], false, true)
  | some (c, readable) =>
    if !readable then ([], false, true)
    else if max_bytes ≠ 0 ∧ max_bytes < c.length then
      let data := c.take (max_bytes + 1)
      if looks_binary data then ([], false, true)
      else (decodeU8 data, true, false)
    else
      if looks_binary c then ([], false, true)
      else (decodeU8 c, false, false)

/-! ## File collection (`os.walk` loop, source lines 275–284) -/

/-- The included files directly inside one directory, in listing order
(`for fname in filenames: if include_pred(p): files.append(p)`). -/
def walkFilesHere (o : Opts) (rel : PathT) (children : List FSTree) : List PathT :=
  children.filterMap fun e =>
    match e with
    | FSTree.file n _ _ => if include_file o (rel ++ [n]) then some (rel ++ [n]) else none
    | FSTree.dir _ _ => none

mutual
/-- Recurse into the non-pruned subdirectories, in listing order. -/
def walkSub (o : Opts) (rel : PathT) : List FSTree → List PathT
  | [] => []
  | e :: rest => walkEntrySub o rel e ++ walkSub o rel rest

/-- The walk's contribution of one child entry: nothing for files (they are
collected at their parent's level), and for a non-pruned directory its own
files first (`os.walk` yields a directory's file list in one batch), then
its subdirectories recursively. -/
def walkEntrySub (o : Opts) (rel : PathT) : FSTree → List PathT
  | FSTree.file _ _ _ => []
  | FSTree.dir n cs =>
    if include_dir o n then
      walkFilesHere o (rel ++ [n]) cs ++ walkSub o (rel ++ [n]) cs
    else []
end

/-- All included files reachable from a directory via `os.walk` with the
pruning of line 278: the directory's own files first, then the non-pruned
subdirectories depth-first in listing order. -/
def walkDir (o : Opts) (rel : PathT) (children : List FSTree) : List PathT :=
  walkFilesHere o rel children ++ walkSub o rel children

/-! ## Deterministic emission order (source line 284) -/

/-- Lexicographic comparison of character lists by code point, embedding
Python string `<=`. -/
def lexLE : List Char → List Char → Bool
  | [], _ => true
  | _ :: _, [] => false
  | a :: as, b :: bs =>
    if a.toNat < b.toNat then true
    else if b.toNat < a.toNat then false
    else lexLE as bs

/-- `str(here / fname)`: the full path of a collected file as a string
(the resolved root followed by the root-relative segments). -/
def fullStr (rootStr : Text) (p : PathT) : Text := rootStr ++ strL "/" ++ relStr p

/-- The sort key of line 284: `str(p).lower()`. -/
def pathKey (rootStr : Text) (p : PathT) : Text := toLowerT (fullStr rootStr p)

/-- The sort relation of line 284 (total preorder; ties are resolved by the
sort's stability, matching Python's stable `sorted`). -/
def pathLE (rootStr : Text) (p q : PathT) : Prop :=
  lexLE (pathKey rootStr p) (pathKey rootStr q) = true

instance (rootStr : Text) : DecidableRel (pathLE rootStr) :=
  fun p q => inferInstanceAs (Decidable (_ = true))

/-- `sorted(set(files), key=lambda p: str(p).lower())`. The Python `set` has
implementation-defined iteration order; it is embedded as `List.dedup`, and
the stable sort then resolves equal keys by that order. -/
def emissionOrder (rootStr : Text) (l : List PathT) : List PathT :=
  List.insertionSort (pathLE rootStr) l.dedup

/-! ## Tree Renderer (`dir_tree_ascii`, source lines 208–234) -/

/-- The sort key of `iter_entries` (line 221): `(not q.is_dir(), q.name.lower())`,
compared lexicographically; the sort is stable. -/
def entryLE (a b : FSTree) : Bool :=
  let na := if isDirT a then 0 else 1
  let nb := if isDirT b then 0 else 1
  if na < nb then true
  else if nb < na then false
  else lexLE (toLowerT (nameOf a)) (toLowerT (nameOf b))

/-- `include_pred` applied to a child entry of the directory at `rel`
(dir branch for directories, file branch for files). -/
def includedEntry (o : Opts) (rel : PathT) (e : FSTree) : Bool :=
  match e with
  | FSTree.dir n _ => include_dir o n
  | FSTree.file n _ _ => include_file o (rel ++ [n])

/-- Lay out sorted entries with their (already rendered, relative) sub-lines:
connector `|-- ` and continuation `|   ` for non-last entries, `` `-- `` and
four spaces for the last one. This is the `walk` inner function of
`dir_tree_ascii` with the prefix accumulator made relative: every line of a
subtree gets its parent's continuation marker prepended here instead of
being threaded down, producing identical strings. -/
def layoutEntries : List (Text × List Text) → List Text
  | [] => []
  | [(name, sub)] => (strL "`-- " ++ name) :: sub.map (fun l => strL "    " ++ l)
  | (name, sub) :: rest =>
    ((strL "|-- " ++ name) :: sub.map (fun l => strL "|   " ++ l)) ++ layoutEntries rest

mutual
/-- The tree lines below one entry (empty for files); for a directory at
root-relative path `selfRel`, its included children sorted by `entryLE`,
each followed by its own subtree lines. The source sorts and filters before
recursing; here every child is paired with its (independently computed)
subtree lines first and the filter/sort runs on the pairs — the same
function, restructured for structural recursion. -/
def renderSub (o : Opts) : FSTree → PathT → List Text
  | FSTree.file _ _ _, _ => []
  | FSTree.dir _ cs, selfRel =>
    let entries := List.insertionSort (fun x y => entryLE x.1 y.1 = true)
      ((renderPairs o selfRel cs).filter (fun x => includedEntry o selfRel x.1))
    layoutEntries (entries.map (fun x => (nameOf x.1, x.2)))

/-- Pair each child with its rendered subtree lines, in listing order. -/
def renderPairs (o : Opts) (selfRel : PathT) : List FSTree → List (FSTree × List Text)
  | [] => []
  | c :: rest => (c, renderSub o c (selfRel ++ [nameOf c])) :: renderPairs o selfRel rest
end

/-- `dir_tree_ascii(root, include_pred)`: the root name on its own line,
then the recursive listing. -/
def dir_tree_ascii (o : Opts) (rootName : Text) (children : List FSTree) : Text :=
  joinNL (rootName :: renderSub o (FSTree.dir rootName children) [])

/-! ## Snapshot Assembler (`build_snapshot`, source lines 238–332) -/

/-- `_lang_from_suffix` (source lines 335–348). -/
def lang_from_suffix (suffix : Text) : Text :=
  if suffix = strL ".test" then strL "test"
  else if suffix = strL ".py" then strL "python"
  else if suffix = strL ".md" then strL "markdown"
  else if suffix = strL ".json" then strL "json"
  else if suffix = strL ".toml" then strL "toml"
  else if suffix = strL ".yml" then strL "yaml"
  else if suffix = strL ".yaml" then strL "yaml"
  else if suffix = strL ".txt" then strL "text"
  else if suffix = strL ".cfg" then strL "ini"
  else if suffix = strL ".ini" then strL "ini"
  else if suffix = strL ".html" then strL "html"
  else []

/-- The literal truncation marker line. -/
def truncMarker : Text := strL "... [truncated] ..."

/-- The head/tail tightening of source lines 309–313: first `hl` lines and
last `tl` lines of the text, joined with a blank line, the marker line and
another blank line in between. -/
def shapeHeadTail (hl tl : Nat) (t : Text) : Text :=
  let lines := splitlines t
  let headL := if 0 < hl then lines.take hl else []
  let tailL := if 0 < tl then lines.drop (lines.length - tl) else []
  joinNL (headL ++ ([] :: truncMarker :: [[]]) ++ tailL)

/-- One emitted file section (source line 321). -/
def mkSection (rel lang text : Text) : Text :=
  strL "## " ++ rel ++ strL "\n```" ++ lang ++ strL "\n" ++ text ++ strL "\n```\n\n"

/-- The outcome of one iteration of the per-file loop (source lines
298–322): the section appended to `out` (none when the file was skipped),
and the flags that feed the two conditional counters. -/
structure FileResult where
  sec : Option Text
  truncated : Bool
  skipped : Bool
deriving DecidableEq

/-- One iteration of the per-file loop of `build_snapshot` (source lines
298–322) for the file at root-relative path `p`. -/
def processFile (o : Opts) (children : List FSTree) (p : PathT) : FileResult :=
  let lang := lang_from_suffix (toLowerT (pySuffix (baseName p)))
  match read_text_safely (lookupIn children p) o.max_bytes with
  | (text, truncated, bin_skip) =>
    if bin_skip && text.isEmpty then ⟨none, false, true⟩
    else
      let t1 :=
        if truncated ∧ (0 < o.head_lines ∨ 0 < o.tail_lines) then
          shapeHeadTail o.head_lines o.tail_lines text
        else text
      ⟨some (mkSection (relStr p) lang (stripNL t1)), truncated, false⟩

/-- The deduplicated, case-insensitively sorted file list of line 284. -/
def snapshotFiles (o : Opts) (rootStr : Text) (children : List FSTree) : List PathT :=
  emissionOrder rootStr (walkDir o [] children)

/-- The loop results for the final file list, in emission order. -/
def snapshotResults (o : Opts) (rootStr : Text) (children : List FSTree) : List FileResult :=
  (snapshotFiles o rootStr children).map (processFile o children)

/-- `total_files`: incremented once per file of the final list (line 299). -/
def statsIncluded (o : Opts) (rootStr : Text) (children : List FSTree) : Nat :=
  (snapshotFiles o rootStr children).length

/-- `truncated_files` (line 316). -/
def statsTruncated (o : Opts) (rootStr : Text) (children : List FSTree) : Nat :=
  (snapshotResults o rootStr children).countP (fun r => r.truncated)

/-- `skipped_binaries` (line 305). -/
def statsSkipped (o : Opts) (rootStr : Text) (children : List FSTree) : Nat :=
  (snapshotResults o rootStr children).countP (fun r => r.skipped)

/-- The concatenated per-file sections, in emission order. -/
def sectionsText (o : Opts) (rootStr : Text) (children : List FSTree) : Text :=
  ((snapshotResults o rootStr children).filterMap (fun r => r.sec)).flatten

/-- The stats footer (source lines 324–330): shown when `show_stats`; the
truncation counter line only appears when a byte cap is configured. -/
def statsFooter (o : Opts) (rootStr : Text) (children : List FSTree) : Text :=
  if o.show_stats then
    strL "---\n" ++ strL "## Snapshot Stats\n" ++
      strL "- files_included: " ++ natStr (statsIncluded o rootStr children) ++ strL "\n" ++
      (if o.max_bytes ≠ 0 then
        strL "- files_truncated_by_bytes: " ++ natStr (statsTruncated o rootStr children) ++
          strL "\n"
      else []) ++
      strL "- files_skipped_as_binary_or_unreadable: " ++
      natStr (statsSkipped o rootStr children) ++ strL "\n"
  else []

/-- `build_snapshot(opts)`: the full Markdown document, as the concatenation
of title header, tree section, file sections in emission order, and the
optional stats footer (source lines 286–332). `rootName` is the resolved
root's base name (`root.name`, used by the tree); `rootStr` its full path
string (used by the sort key of line 284). -/
def build_snapshot (o : Opts) (rootName rootStr : Text) (children : List FSTree) : Text :=
  strL "# Project Snapshot\n" ++ strL "## Directory Tree\n" ++ strL "```text\n" ++
    dir_tree_ascii o rootName children ++ strL "\n```\n\n" ++
    sectionsText o rootStr children ++ statsFooter o rootStr children

/-! ## Defaults (source lines 60–89 and 411–420) -/

/-- `DEFAULT_INCLUDE_EXTS`. -/
def DEFAULT_INCLUDE_EXTS : List Text :=
  [strL ".py", strL ".json", strL ".test", strL ".sh", strL ".toml", strL ".yml",
    strL ".yaml", strL ".cfg", strL ".ini", strL ".html", strL ""]

/-- `DEFAULT_EXCLUDE_DIRS`. -/
def DEFAULT_EXCLUDE_DIRS : List Text :=
  [strL "__pycache__", strL ".git", strL ".venv", strL "venv", strL ".idea",
    strL ".mypy_cache", strL "data", strL "bu", strL "bootstrap", strL "out",
    strL "config", strL ".ipynb_checkpoints", strL "assets", strL ".pytest_cache"]

/-- `DEFAULT_EXCLUDE_FILES`. -/
def DEFAULT_EXCLUDE_FILES : List Text := [strL "scratch.json", strL "scratch.py"]

/-- The options of a run with no CLI overrides and no config file
(`main`, source lines 410–420): defaults everywhere, gitignore off. -/
def defaultOpts : Opts :=
  { include_exts := DEFAULT_INCLUDE_EXTS
    exclude_dirs := DEFAULT_EXCLUDE_DIRS
    exclude_files := DEFAULT_EXCLUDE_FILES
    include_globs := []
    exclude_globs := []
    gitignore_pats := []
    max_bytes := 0
    head_lines := 200
    tail_lines := 80
    show_stats := true }

/-! ## The run boundary of `main` (source lines 426–447)

The timestamp (`datetime.now()`) is used only to instantiate the output
filename template; the document is `build_snapshot(opts)`. One per-process
source of nondeterminism remains inside `build_snapshot` itself: the
iteration order of the `set(files)` of line 284, which CPython randomizes
per process via the string hash seed. `runSnapshotSeeded` therefore takes
that order as an explicit input — any permutation of the deduplicated
collected list is an order some process can produce — so that cross-run
statements quantify over it instead of silently fixing it. -/

/-- A finished run: the document written, and the path it is written to. -/
structure RunOutput where
  document : Text
  outPath : Text

/-- The default output filename template
`snapshots/\x7blabel\x7d_\x7bdate\x7d_\x7btime\x7d.md` instantiated with the
label and the formatted timestamp (source lines 431–439). -/
def formatDefaultTemplate (label dateStr timeStr : Text) : Text :=
  strL "snapshots/" ++ label ++ strL "_" ++ dateStr ++ strL "_" ++ timeStr ++ strL ".md"

/-- The stats footer of lines 324–330 as a function of the final file list
and the loop results it was computed from. -/
def statsFooterFor (o : Opts) (files : List PathT) (results : List FileResult) : Text :=
  if o.show_stats then
    strL "---\n" ++ strL "## Snapshot Stats\n" ++
      strL "- files_included: " ++ natStr files.length ++ strL "\n" ++
      (if o.max_bytes ≠ 0 then
        strL "- files_truncated_by_bytes: " ++
          natStr (results.countP (fun r => r.truncated)) ++ strL "\n"
      else []) ++
      strL "- files_skipped_as_binary_or_unreadable: " ++
      natStr (results.countP (fun r => r.skipped)) ++ strL "\n"
  else []

/-- `build_snapshot` with the iteration order of the line-284 `set(files)`
made explicit: `setOrder` is the sequence in which the process's set yields
the deduplicated collected files to `sorted`. With
`setOrder := (walkDir o [] children).dedup` this is exactly
`build_snapshot` (proved in the C9 theorem). -/
def build_snapshotSeeded (o : Opts) (rootName rootStr : Text) (children : List FSTree)
    (setOrder : List PathT) : Text :=
  let files := List.insertionSort (pathLE rootStr) setOrder
  let results := files.map (processFile o children)
  strL "# Project Snapshot\n" ++ strL "## Directory Tree\n" ++ strL "```text\n" ++
    dir_tree_ascii o rootName children ++ strL "\n```\n\n" ++
    (results.filterMap (fun r => r.sec)).flatten ++ statsFooterFor o files results

/-- The output phase of `main` for one process: build the document (with the
process's set iteration order) and compute the output path from the label
and the current date/time (source lines 426–446). -/
def runSnapshotSeeded (o : Opts) (rootName rootStr : Text) (children : List FSTree)
    (setOrder : List PathT) (label dateStr timeStr : Text) : RunOutput :=
  ⟨build_snapshotSeeded o rootName rootStr children setOrder,
    formatDefaultTemplate label dateStr timeStr⟩

/-! ## Generic helpers for the claim proofs -/

/-- Substring test: `pat` occurs contiguously in `t`. -/
def containsSub (pat : Text) : Text → Bool
  | [] => pat.isEmpty
  | c :: rest => pat.isPrefixOf (c :: rest) || containsSub pat rest

theorem pairwise_imp_mem {α : Type} {R S : α → α → Prop} :
    ∀ {l : List α}, l.Pairwise R → (∀ a ∈ l, ∀ b ∈ l, R a b → S a b) → l.Pairwise S := by
  intro l
  induction l with
  | nil => intro _ _; exact List.Pairwise.nil
  | cons x t ih =>
    intro h hm
    rcases List.pairwise_cons.mp h with ⟨hx, ht⟩
    refine List.pairwise_cons.mpr ⟨fun b hb => hm x (by simp) b (by simp [hb]) (hx b hb), ?_⟩
    exact ih ht (fun a ha b hb hr => hm a (by simp [ha]) b (by simp [hb]) hr)

theorem pairwise_and {α : Type} {R S : α → α → Prop} :
    ∀ {l : List α}, l.Pairwise R → l.Pairwise S → l.Pairwise (fun a b => R a b ∧ S a b) := by
  intro l
  induction l with
  | nil => intro _ _; exact List.Pairwise.nil
  | cons x t ih =>
    intro h1 h2
    rcases List.pairwise_cons.mp h1 with ⟨hx1, ht1⟩
    rcases List.pairwise_cons.mp h2 with ⟨hx2, ht2⟩
    exact List.pairwise_cons.mpr ⟨fun b hb => ⟨hx1 b hb, hx2 b hb⟩, ih ht1 ht2⟩

/-- A per-file loop iteration emits a section iff it did not skip the file. -/
theorem processFile_skipped_iff (o : Opts) (children : List FSTree) (p : PathT) :
    ((processFile o children p).sec = none ↔ (processFile o children p).skipped = true) := by
  unfold processFile
  rcases read_text_safely (lookupIn children p) o.max_bytes with ⟨text, tr, bs⟩
  by_cases h : (bs && text.isEmpty) = true
  · simp [h]
  · simp [h]

/-- Sections plus skips account for every loop iteration. -/
theorem secCount_add_skipped :
    ∀ l : List FileResult, (∀ r ∈ l, (r.sec = none ↔ r.skipped = true)) →
      (l.filterMap (fun r => r.sec)).length + l.countP (fun r => r.skipped) = l.length := by
  intro l
  induction l with
  | nil => intro _; simp
  | cons x t ih =>
    intro hm
    have hx := hm x (by simp)
    have ht := ih (fun r hr => hm r (by simp [hr]))
    simp only [List.filterMap_cons, List.countP_cons]
    rcases hsec : x.sec with _ | s
    · have hsk : x.skipped = true := hx.mp hsec
      simp only [hsec, hsk, List.length_cons]
      simp
      all_goals omega
    · have hsk : x.skipped = false := by
        rcases Bool.eq_false_or_eq_true x.skipped with h | h
        · rw [hx.mpr h] at hsec
          exact Option.noConfusion hsec
        · exact h
      simp only [hsec, hsk, List.length_cons]
      simp
      all_goals omega

/-! # Claims -/

/-- **C6**: for every byte sample, `looks_binary` classifies it as follows:
an empty sample is not binary; a sample containing any NUL byte is binary;
otherwise the sample is binary iff the fraction of bytes greater than 0x7F
strictly exceeds 0.30 (`count / len > 3/10`, i.e. `3 * len < 10 * count`). -/
theorem looks_binary_characterization (sample : List Nat) :
    looks_binary sample = true ↔
      sample ≠ [] ∧ (0 ∈ sample ∨
        3 * sample.length < 10 * sample.countP (fun ch => decide (0x7F < ch))) := by
  unfold looks_binary
  split_ifs with h1 h2
  · simp only [Bool.false_eq_true, false_iff, not_and]
    intro hne
    exact absurd (by simpa using h1) hne
  · simp only [true_iff]
    refine ⟨by simpa using h1, Or.inl (List.elem_iff.mp h2)⟩
  · have hne : sample ≠ [] := by simpa using h1
    have hnm : 0 ∉ sample := fun hm => h2 (List.elem_iff.mpr hm)
    simp [hne, hnm]

/-- **C2**: for every readable file content `c` and cap `mb`: if `mb` is 0 or
the size does not exceed `mb`, the reader reads the full content, returns
binary-skipped with empty text when the sniffer classifies it binary, and
otherwise the lossily UTF-8-decoded content with `truncated = false` (the
decoder is total, so malformed encodings never raise); if the size exceeds
`mb > 0`, it reads exactly `mb + 1` bytes and classifies/decodes that
sample, returning `truncated = true`. -/
theorem read_text_safely_spec (c : List Nat) (mb : Nat) :
    ((mb = 0 ∨ c.length ≤ mb) →
      read_text_safely (some (c, true)) mb =
        if looks_binary c then ([], false, true) else (decodeU8 c, false, false))
    ∧ (0 < mb → mb < c.length →
      (c.take (mb + 1)).length = mb + 1 ∧
      read_text_safely (some (c, true)) mb =
        if looks_binary (c.take (mb + 1)) then ([], false, true)
        else (decodeU8 (c.take (mb + 1)), true, false)) := by
  constructor
  · intro h
    have hn : ¬(mb ≠ 0 ∧ mb < c.length) := by omega
    unfold read_text_safely
    simp only [Bool.not_true, Bool.false_eq_true, if_false, if_neg hn]
  · intro h1 h2
    refine ⟨by simp [List.length_take]; omega, ?_⟩
    have hy : mb ≠ 0 ∧ mb < c.length := ⟨by omega, h2⟩
    unfold read_text_safely
    simp only [Bool.not_true, Bool.false_eq_true, if_false, if_pos hy]

/-- Witness for C2 at concrete inputs: `print(1)` uncapped, and a 4-byte
file capped at 2 bytes (3 bytes read, truncated). -/
theorem read_text_safely_spec_witness :
    ((0 = 0 ∨ ([112, 114, 105, 110, 116, 40, 49, 41] : List Nat).length ≤ 0) ∧
      read_text_safely (some ([112, 114, 105, 110, 116, 40, 49, 41], true)) 0 =
        (strL "print(1)", false, false))
    ∧ (0 < 2 ∧ 2 < ([65, 66, 67, 68] : List Nat).length ∧
      read_text_safely (some ([65, 66, 67, 68], true)) 2 = (strL "ABC", true, false)) := by
  refine ⟨⟨Or.inl rfl, ?_⟩, by decide, by decide, ?_⟩
  · rw [(read_text_safely_spec [112, 114, 105, 110, 116, 40, 49, 41] 0).1 (Or.inl rfl)]
    decide
  · rw [((read_text_safely_spec [65, 66, 67, 68] 2).2 (by decide) (by decide)).2]
    decide

/-- **C1**: the file branch of the path filter includes a file iff it passes
all five checks: (1) no configured exclude-glob matches the root-relative
path, (2) no loaded gitignore pattern matches it, (3) if include-globs are
configured, one matches it, (4) the base name is not an excluded filename,
and (5) the lower-cased extension (empty for extensionless names) is among
the lower-cased included extensions. The source evaluates the checks in
this order with the first failing one excluding the file; as all checks are
pure, that fixed evaluation order is exactly this conjunction. -/
theorem include_file_characterization (o : Opts) (p : PathT) :
    include_file o p = true ↔
      ¬(o.exclude_globs ≠ [] ∧ matches_any_glob (relStr p) o.exclude_globs = true)
      ∧ ¬(o.gitignore_pats ≠ [] ∧ matches_any_glob (relStr p) o.gitignore_pats = true)
      ∧ (o.include_globs ≠ [] → matches_any_glob (relStr p) o.include_globs = true)
      ∧ baseName p ∉ o.exclude_files
      ∧ toLowerT (pySuffix (baseName p)) ∈ o.include_exts.map toLowerT := by
  unfold include_file
  by_cases hb1 : (!o.exclude_globs.isEmpty && matches_any_glob (relStr p) o.exclude_globs) = true
  · rw [if_pos hb1]
    simp only [Bool.and_eq_true, Bool.not_eq_true', List.isEmpty_eq_false] at hb1
    simp only [Bool.false_eq_true, false_iff]
    intro ⟨hx, _, _, _, _⟩
    exact hx hb1
  · rw [if_neg hb1]
    by_cases hb2 : (!o.gitignore_pats.isEmpty && matches_any_glob (relStr p) o.gitignore_pats) = true
    · rw [if_pos hb2]
      simp only [Bool.and_eq_true, Bool.not_eq_true', List.isEmpty_eq_false] at hb2
      simp only [Bool.false_eq_true, false_iff]
      intro ⟨_, hx, _, _, _⟩
      exact hx hb2
    · rw [if_neg hb2]
      by_cases hb3 :
          (!o.include_globs.isEmpty && !matches_any_glob (relStr p) o.include_globs) = true
      · rw [if_pos hb3]
        simp only [Bool.and_eq_true, Bool.not_eq_true', List.isEmpty_eq_false] at hb3
        simp only [Bool.false_eq_true, false_iff]
        intro ⟨_, _, hx, _, _⟩
        have := hx hb3.1
        simp [this] at hb3
      · rw [if_neg hb3]
        by_cases hb4 : o.exclude_files.contains (baseName p) = true
        · rw [if_pos hb4]
          simp only [Bool.false_eq_true, false_iff]
          intro ⟨_, _, _, hx, _⟩
          exact hx (List.elem_iff.mp hb4)
        · rw [if_neg hb4]
          simp only [Bool.and_eq_true, Bool.not_eq_true', List.isEmpty_eq_false, not_and]
            at hb1 hb2 hb3
          constructor
          · intro hm
            refine ⟨?_, ?_, ?_, ?_, List.elem_iff.mp (by simpa [lowerExts] using hm)⟩
            · intro ⟨ha, hb⟩
              exact absurd hb (by simpa using hb1 ha)
            · intro ⟨ha, hb⟩
              exact absurd hb (by simpa using hb2 ha)
            · intro ha
              simpa using hb3 ha
            · intro hm2
              exact hb4 (List.elem_iff.mpr hm2)
          · intro ⟨_, _, _, _, hm⟩
            exact List.elem_iff.mpr (by simpa [lowerExts] using hm)

/-- The C5 scenario: `a.py` holding `print(1)` (8 bytes), `b.bin` holding
bytes 00 01 02, and a hidden directory `.git` containing `ignored.py`. -/
def c5root : List FSTree :=
  [ FSTree.file (strL "a.py") [112, 114, 105, 110, 116, 40, 49, 41] true,
    FSTree.file (strL "b.bin") [0, 1, 2] true,
    FSTree.dir (strL ".git") [FSTree.file (strL "ignored.py") [112] true] ]

set_option maxRecDepth 100000 in
/-- **C5 (counterexample)**: in the C5 scenario with default options, the
stats do not report `files_skipped_as_binary_or_unreadable: 1` — the
skipped counter is 0 and the claimed footer line is absent from the
document. `b.bin` fails check (5) of the path filter (extension `.bin` is
not an included extension), so it is never collected, never read, and never
counted; the skipped counter only sees files that passed the filter. -/
theorem c5_skipped_count_is_zero :
    statsSkipped defaultOpts (strL "/tmp/root") c5root = 0
    ∧ statsSkipped defaultOpts (strL "/tmp/root") c5root ≠ 1
    ∧ containsSub (strL "- files_skipped_as_binary_or_unreadable: 1")
        (build_snapshot defaultOpts (strL "root") (strL "/tmp/root") c5root) = false := by
  refine ⟨by decide, by decide, by decide⟩

set_option maxRecDepth 100000 in
/-- **C5 (amended)**: for the concrete input where root contains `a.py`
(content `print(1)`, 8 bytes), `b.bin` (bytes 00 01 02), and hidden
directory `.git` containing `ignored.py`, run with default options: the
output tree lists only `a.py`, the `a.py` section shows `print(1)`, and the
stats footer reports `files_included: 1` and
`files_skipped_as_binary_or_unreadable: 0` (`b.bin` is excluded by the
extension check before reading, so it is not counted as skipped). -/
theorem c5_document :
    build_snapshot defaultOpts (strL "root") (strL "/tmp/root") c5root =
      strL "# Project Snapshot\n## Directory Tree\n```text\nroot\n`-- a.py\n```\n\n## a.py\n```python\nprint(1)\n```\n\n---\n## Snapshot Stats\n- files_included: 1\n- files_skipped_as_binary_or_unreadable: 0\n" := by
  decide

/-- **C10**: `files_included` counts every file that passed the path filter
during traversal (the length of the deduplicated sorted file list, whose
members are exactly the collected ones), including files later skipped as
binary or unreadable: emitted sections plus skips add up to
`files_included`, so it can exceed the number of sections. In the concrete
run over a single NUL-containing `x.py`, one file is included, no section
is emitted, and the same file is counted as skipped. -/
theorem included_counts_all_filtered (o : Opts) (rootStr : Text) (children : List FSTree) :
    statsIncluded o rootStr children = (snapshotFiles o rootStr children).length
    ∧ (∀ p, p ∈ snapshotFiles o rootStr children ↔ p ∈ walkDir o [] children)
    ∧ ((snapshotResults o rootStr children).filterMap (fun r => r.sec)).length
        + statsSkipped o rootStr children = statsIncluded o rootStr children
    ∧ statsIncluded defaultOpts (strL "/r") [FSTree.file (strL "x.py") [0] true] = 1
    ∧ ((snapshotResults defaultOpts (strL "/r")
        [FSTree.file (strL "x.py") [0] true]).filterMap (fun r => r.sec)).length = 0
    ∧ statsSkipped defaultOpts (strL "/r") [FSTree.file (strL "x.py") [0] true] = 1 := by
  refine ⟨rfl, ?_, ?_, by decide, by decide, by decide⟩
  · intro p
    simp [snapshotFiles, emissionOrder, List.mem_dedup]
  · have h := secCount_add_skipped ((snapshotFiles o rootStr children).map (processFile o children))
      (by
        intro r hr
        rcases List.mem_map.mp hr with ⟨p, _, hp⟩
        rw [← hp]
        exact processFile_skipped_iff o children p)
    simpa [snapshotResults, statsSkipped, statsIncluded] using h

/-- **C7**: a file whose read fails (vanished path, or an I/O error while
reading) is returned by the reader as binary-skipped with empty text,
produces no section, is counted in `files_skipped_as_binary_or_unreadable`,
and the rest of the run is unaffected: wherever it sits in the emission
list, the other files' sections and counters are exactly those of the list
without it, the section list is unchanged, the skipped counter is one
higher, and the included counter is one higher. -/
theorem read_failure_is_isolated (o : Opts) (children : List FSTree) (p : PathT)
    (h : lookupIn children p = none ∨ ∃ c, lookupIn children p = some (c, false)) :
    read_text_safely (lookupIn children p) o.max_bytes = ([], false, true)
    ∧ processFile o children p = ⟨none, false, true⟩
    ∧ ∀ pre suf : List PathT,
        ((pre ++ p :: suf).map (processFile o children)).filterMap (fun r => r.sec)
          = ((pre ++ suf).map (processFile o children)).filterMap (fun r => r.sec)
        ∧ ((pre ++ p :: suf).map (processFile o children)).countP (fun r => r.skipped)
          = ((pre ++ suf).map (processFile o children)).countP (fun r => r.skipped) + 1
        ∧ (pre ++ p :: suf).length = (pre ++ suf).length + 1 := by
  have hread : read_text_safely (lookupIn children p) o.max_bytes = ([], false, true) := by
    rcases h with h | ⟨c, h⟩
    · rw [h]; rfl
    · rw [h]; rfl
  have hproc : processFile o children p = ⟨none, false, true⟩ := by
    unfold processFile
    rw [hread]
    rfl
  refine ⟨hread, hproc, ?_⟩
  intro pre suf
  refine ⟨?_, ?_, by simp; omega⟩
  · simp [List.filterMap_append, hproc]
  · simp [List.countP_append, hproc]
    omega

/-- Witness for C7: a tree holding a readable `a.py` and an unreadable
`broken.py`; the failing file contributes no section, and the counters over
`[a.py, broken.py]` are those over `[a.py]` plus one skip. -/
theorem read_failure_is_isolated_witness :
    (lookupIn [FSTree.file (strL "a.py") [112] true,
        FSTree.file (strL "broken.py") [113] false] [strL "broken.py"] = none ∨
      ∃ c, lookupIn [FSTree.file (strL "a.py") [112] true,
        FSTree.file (strL "broken.py") [113] false] [strL "broken.py"] = some (c, false))
    ∧ processFile defaultOpts
        [FSTree.file (strL "a.py") [112] true, FSTree.file (strL "broken.py") [113] false]
        [strL "broken.py"] = ⟨none, false, true⟩
    ∧ (([[strL "a.py"], [strL "broken.py"]].map (processFile defaultOpts
          [FSTree.file (strL "a.py") [112] true,
            FSTree.file (strL "broken.py") [113] false])).countP (fun r => r.skipped)
        = ([[strL "a.py"]].map (processFile defaultOpts
          [FSTree.file (strL "a.py") [112] true,
            FSTree.file (strL "broken.py") [113] false])).countP (fun r => r.skipped) + 1) := by
  have h := read_failure_is_isolated defaultOpts
    [FSTree.file (strL "a.py") [112] true, FSTree.file (strL "broken.py") [113] false]
    [strL "broken.py"] (Or.inr ⟨[113], by decide⟩)
  exact ⟨Or.inr ⟨[113], by decide⟩, h.2.1, (h.2.2 [[strL "a.py"]] []).2.1⟩

/-- **C3**: for a file whose read was truncated by a byte cap
`max_bytes = N > 0` (size `> N`, sample not sniffed as binary): when
`head_lines > 0` or `tail_lines > 0`, the emitted section text is the first
`head_lines` lines and the last `tail_lines` lines of the decoded text (the
decoded `N + 1`-byte sample) joined with a blank line, the literal marker
line `... [truncated] ...`, and another blank line in between (before the
final newline strip of line 319); the file's `truncated` flag is set, which
is what `files_truncated_by_bytes` counts; a file whose content has size
`<= N` never has the flag set; and when both line counts are 0 the
truncated text passes through unshaped. -/
theorem truncation_shaping (o : Opts) (children : List FSTree) (p : PathT)
    (c : List Nat) (N : Nat)
    (hmb : o.max_bytes = N) (hN : 0 < N)
    (hl : lookupIn children p = some (c, true))
    (hsize : N < c.length)
    (hbin : looks_binary (c.take (N + 1)) = false) :
    ((0 < o.head_lines ∨ 0 < o.tail_lines) →
      processFile o children p = ⟨some (mkSection (relStr p)
          (lang_from_suffix (toLowerT (pySuffix (baseName p))))
          (stripNL (joinNL (
            (if 0 < o.head_lines then
              (splitlines (decodeU8 (c.take (N + 1)))).take o.head_lines else []) ++
            ([] :: truncMarker :: [[]]) ++
            (if 0 < o.tail_lines then
              (splitlines (decodeU8 (c.take (N + 1)))).drop
                ((splitlines (decodeU8 (c.take (N + 1)))).length - o.tail_lines) else []))))),
        true, false⟩)
    ∧ (o.head_lines = 0 → o.tail_lines = 0 →
      processFile o children p = ⟨some (mkSection (relStr p)
          (lang_from_suffix (toLowerT (pySuffix (baseName p))))
          (stripNL (decodeU8 (c.take (N + 1))))), true, false⟩)
    ∧ (processFile o children p).truncated = true
    ∧ (∀ q c2 r, lookupIn children q = some (c2, r) → c2.length ≤ N →
        (processFile o children q).truncated = false)
    ∧ (∀ q, lookupIn children q = none → (processFile o children q).truncated = false)
    ∧ (∀ rootStr, statsTruncated o rootStr children =
        ((snapshotFiles o rootStr children).map (processFile o children)).countP
          (fun r => r.truncated)) := by
  have hcond : o.max_bytes ≠ 0 ∧ o.max_bytes < c.length := by omega
  have hread : read_text_safely (lookupIn children p) o.max_bytes =
      (decodeU8 (c.take (N + 1)), true, false) := by
    rw [hl]
    unfold read_text_safely
    rw [hmb] at hcond ⊢
    simp only [Bool.not_true, Bool.false_eq_true, if_false, if_pos hcond, hbin]
  refine ⟨?_, ?_, ?_, ?_, ?_, fun _ => rfl⟩
  · intro hht
    unfold processFile
    rw [hread]
    simp only [Bool.false_and, Bool.false_eq_true, if_false]
    rw [if_pos (show True ∧ (0 < o.head_lines ∨ 0 < o.tail_lines) from ⟨trivial, hht⟩)]
    simp only [shapeHeadTail]
  · intro hh ht
    unfold processFile
    rw [hread]
    simp only [Bool.false_and, Bool.false_eq_true, if_false]
    rw [if_neg (show ¬(True ∧ (0 < o.head_lines ∨ 0 < o.tail_lines)) from
      fun hx => by rcases hx.2 with hy | hy <;> omega)]
  · unfold processFile
    rw [hread]
    simp only [Bool.false_and, Bool.false_eq_true, if_false]
  · intro q c2 r hq hle
    unfold processFile
    rw [hq]
    unfold read_text_safely
    rcases r with _ | _
    · rfl
    · have : ¬(o.max_bytes ≠ 0 ∧ o.max_bytes < c2.length) := by omega
      simp only [Bool.not_true, Bool.false_eq_true, if_false, if_neg this]
      by_cases hb : looks_binary c2 = true
      · simp only [hb, if_pos rfl]
        rfl
      · simp only [Bool.not_eq_true] at hb
        simp only [hb, Bool.false_eq_true, if_false]
        split_ifs <;> rfl
  · intro q hq
    unfold processFile
    rw [hq]
    rfl

/-- Options of the C3/C4 scenario: `max_bytes = 10`, one head line, one
tail line, defaults otherwise. -/
def c3opts : Opts := { defaultOpts with max_bytes := 10, head_lines := 1, tail_lines := 1 }

/-- An 18-byte three-line file; under a 10-byte cap the reader sees the
11-byte sample `line1\nline2`. -/
def c3content : List Nat := (strL "line1\nline2\nline3\n").map Char.toNat

/-- A root holding only `big.py` with `c3content`. -/
def c3root : List FSTree := [FSTree.file (strL "big.py") c3content true]

/-- Witness for C3: for the 18-byte `big.py` under `max_bytes = 10` with one
head and one tail line, the section text is line 1, the marker, and the last
line of the 11-byte sample. -/
theorem truncation_shaping_witness :
    processFile c3opts c3root [strL "big.py"] =
      ⟨some (strL "## big.py\n```python\nline1\n\n... [truncated] ...\n\nline2\n```\n\n"),
        true, false⟩
    ∧ (processFile c3opts c3root [strL "big.py"]).truncated = true := by
  have h := truncation_shaping c3opts c3root [strL "big.py"] c3content 10 rfl (by decide)
    (by decide) (by decide) (by decide)
  constructor
  · rw [h.1 (by decide)]
    decide
  · exact h.2.2.1

/-- Worker splitting a byte string at LF bytes (`acc` is the reversed
current line); used to state what "a file containing k lines" means at the
byte level for the C4 scenario. -/
def byteLinesAux : List Nat → List Nat → List (List Nat)
  | [], acc => if acc.isEmpty then [] else [acc.reverse]
  | b :: rest, acc =>
    if b = 10 then acc.reverse :: byteLinesAux rest []
    else byteLinesAux rest (b :: acc)

/-- The newline-separated lines of a byte string. -/
def byteLines (bs : List Nat) : List (List Nat) := byteLinesAux bs []

theorem byteLinesAux_sum : ∀ (bs acc : List Nat),
    ((byteLinesAux bs acc).map List.length).sum + bs.count 10 = acc.length + bs.length := by
  intro bs
  induction bs with
  | nil =>
    intro acc
    cases acc <;> simp [byteLinesAux]
  | cons b rest ih =>
    intro acc
    by_cases hb : b = 10
    · subst hb
      have h2 := ih []
      simp [byteLinesAux, List.count_cons] at h2 ⊢
      omega
    · have h2 := ih (b :: acc)
      simp [byteLinesAux, List.count_cons, hb] at h2 ⊢
      omega

theorem byteLinesAux_count_le : ∀ (bs acc : List Nat),
    bs.count 10 ≤ (byteLinesAux bs acc).length := by
  intro bs
  induction bs with
  | nil => intro acc; simp
  | cons b rest ih =>
    intro acc
    by_cases hb : b = 10
    · subst hb
      have h2 := ih []
      simp [byteLinesAux, List.count_cons]
      omega
    · have h2 := ih (b :: acc)
      simp [byteLinesAux, List.count_cons, hb]
      omega

/-- **C4 (counterexample)**: the concrete input the claim describes does not
exist: no byte string has 5 newline-separated lines, each under 10 bytes,
and total size 60 bytes — the lines contribute less than 50 bytes and the
newlines at most one per line, so the size is at most 54. The claimed
output is also impossible for any such configuration: the reader consumes
only `max_bytes + 1 = 11` bytes, so the tail lines come from the 11-byte
sample, never from line 5 of the file (see the amended theorem). -/
theorem c4_scenario_unsatisfiable :
    ¬ ∃ content : List Nat, (byteLines content).length = 5
      ∧ (∀ l ∈ byteLines content, l.length < 10) ∧ content.length = 60 := by
  rintro ⟨content, h5, hlt, h60⟩
  have hsum := byteLinesAux_sum content []
  have hcnt := byteLinesAux_count_le content []
  have hall : ∀ x ∈ (byteLines content).map List.length, x ≤ 9 := by
    intro x hx
    rcases List.mem_map.mp hx with ⟨l, hl, rfl⟩
    exact Nat.lt_succ_iff.mp (hlt l hl)
  have hb := List.sum_le_card_nsmul _ 9 hall
  simp only [List.length_map, h5, smul_eq_mul] at hb
  have hcnt' : content.count 10 ≤ 5 := by
    calc content.count 10 ≤ (byteLinesAux content []).length := hcnt
    _ = (byteLines content).length := rfl
    _ = 5 := h5
  have hsum' : ((byteLines content).map List.length).sum + content.count 10 = 60 := by
    simpa [byteLines, h60] using hsum
  omega

/-- The closest satisfiable instance of the C4 scenario: 60 bytes, 5
newline-terminated lines (`aaaa`, `bbbb`, 16 `c`s, 16 `d`s, 15 `e`s). -/
def c4content : List Nat :=
  (strL "aaaa\nbbbb\ncccccccccccccccc\ndddddddddddddddd\neeeeeeeeeeeeeee\n").map Char.toNat

/-- A root holding only `big.py` with `c4content`. -/
def c4root : List FSTree := [FSTree.file (strL "big.py") c4content true]

set_option maxRecDepth 100000 in
/-- **C4 (amended)**: the scenario as stated is unsatisfiable (5 lines each
under 10 bytes total at most 54 bytes, not 60); for the closest satisfiable
input — `big.py` of 60 bytes with 5 lines — under `max_bytes = 10`,
`head_lines = 1`, `tail_lines = 1`, the emitted section contains line 1
(`aaaa`), the truncation marker, and the last line of the decoded 11-byte
sample (`c`, the first byte of line 3) and nothing else; line 5 of the file
never appears, because the reader consumes only `max_bytes + 1` bytes. -/
theorem c4_section_is_head_marker_sample_tail :
    c4content.length = 60
    ∧ (byteLines c4content).length = 5
    ∧ processFile c3opts c4root [strL "big.py"] =
        ⟨some (strL "## big.py\n```python\naaaa\n\n... [truncated] ...\n\nc\n```\n\n"),
          true, false⟩
    ∧ containsSub (strL "aaaa") (((processFile c3opts c4root [strL "big.py"]).sec).getD []) = true
    ∧ containsSub truncMarker (((processFile c3opts c4root [strL "big.py"]).sec).getD []) = true
    ∧ containsSub (strL "eeeeeeeeeeeeeee")
        (((processFile c3opts c4root [strL "big.py"]).sec).getD []) = false := by
  refine ⟨by decide, by decide, by decide, by decide, by decide, by decide⟩

/-! ## Order lemmas for the emission sort -/

theorem lexLE_total : ∀ (a b : List Char), lexLE a b = true ∨ lexLE b a = true
  | [], _ => Or.inl rfl
  | _ :: _, [] => Or.inr rfl
  | a :: as, b :: bs => by
    simp only [lexLE]
    rcases Nat.lt_trichotomy a.toNat b.toNat with h | h | h
    · left; simp [h]
    · rcases lexLE_total as bs with hr | hr
      · left; simp [h, hr]
      · right; simp [h, hr]
    · right; simp [h]

theorem lexLE_trans : ∀ (a b c : List Char),
    lexLE a b = true → lexLE b c = true → lexLE a c = true
  | [], _, _, _, _ => rfl
  | _ :: _, [], _, h1, _ => by simp [lexLE] at h1
  | _ :: _, _ :: _, [], _, h2 => by simp [lexLE] at h2
  | a :: as, b :: bs, c :: cs, h1, h2 => by
    simp only [lexLE] at h1 h2 ⊢
    by_cases hab : a.toNat < b.toNat
    · by_cases hbc : b.toNat < c.toNat
      · simp [show a.toNat < c.toNat by omega]
      · by_cases hcb : c.toNat < b.toNat
        · simp [hbc, hcb] at h2
        · simp [show a.toNat < c.toNat by omega]
    · by_cases hba : b.toNat < a.toNat
      · simp [hab, hba] at h1
      · by_cases hbc : b.toNat < c.toNat
        · simp [show a.toNat < c.toNat by omega]
        · by_cases hcb : c.toNat < b.toNat
          · simp [hbc, hcb] at h2
          · simp [hab, hba] at h1
            simp [hbc, hcb] at h2
            simp only [show ¬a.toNat < c.toNat by omega, show ¬c.toNat < a.toNat by omega,
              if_false]
            exact lexLE_trans as bs cs h1 h2

theorem lexLE_antisymm : ∀ (a b : List Char),
    lexLE a b = true → lexLE b a = true → a = b
  | [], [], _, _ => rfl
  | [], _ :: _, _, h2 => by simp [lexLE] at h2
  | _ :: _, [], h1, _ => by simp [lexLE] at h1
  | a :: as, b :: bs, h1, h2 => by
    simp only [lexLE] at h1 h2
    by_cases hab : a.toNat < b.toNat
    · simp [show ¬b.toNat < a.toNat by omega, hab] at h2
    · by_cases hba : b.toNat < a.toNat
      · simp [hab, hba] at h1
      · have hv : a = b := by
          have h3 : a.toNat = b.toNat := by omega
          exact Char.ext (UInt32.ext (by simpa [Char.toNat] using h3))
        subst hv
        simp [hab, hba] at h1 h2
        rw [lexLE_antisymm as bs h1 h2]

/-- The strict companion of `pathLE`: strictly smaller case-lowered key. -/
def pathKeyLT (rootStr : Text) (p q : PathT) : Prop :=
  pathLE rootStr p q ∧ pathKey rootStr p ≠ pathKey rootStr q

/-- `emissionOrder` always yields a list sorted by the case-insensitive
full-path key. -/
theorem emissionOrder_sorted (rootStr : Text) (l : List PathT) :
    (emissionOrder rootStr l).Sorted (pathLE rootStr) := by
  haveI : IsTotal PathT (pathLE rootStr) := ⟨fun p q => lexLE_total _ _⟩
  haveI : IsTrans PathT (pathLE rootStr) := ⟨fun p q r h1 h2 => lexLE_trans _ _ _ h1 h2⟩
  exact List.sorted_insertionSort _ _

/-- When no two distinct collected paths share a case-lowered key, the
dedup-and-sort of line 284 depends only on the multiset of collected files,
not on the traversal order that produced them. -/
theorem emissionOrder_perm_invariant (rootStr : Text) (l₁ l₂ : List PathT)
    (hperm : l₁.Perm l₂)
    (hinj : ∀ p ∈ l₁, ∀ q ∈ l₁, p ≠ q → pathKey rootStr p ≠ pathKey rootStr q) :
    emissionOrder rootStr l₁ = emissionOrder rootStr l₂ := by
  have hp1 : (emissionOrder rootStr l₁).Perm l₁.dedup := List.perm_insertionSort _ _
  have hp2 : (emissionOrder rootStr l₂).Perm l₂.dedup := List.perm_insertionSort _ _
  have hd : l₁.dedup.Perm l₂.dedup := hperm.dedup
  have hp : (emissionOrder rootStr l₁).Perm (emissionOrder rootStr l₂) :=
    hp1.trans (hd.trans hp2.symm)
  have hn1 : (emissionOrder rootStr l₁).Nodup := hp1.nodup_iff.mpr (List.nodup_dedup l₁)
  have hn2 : (emissionOrder rootStr l₂).Nodup := hp2.nodup_iff.mpr (List.nodup_dedup l₂)
  have hmem1 : ∀ p ∈ emissionOrder rootStr l₁, p ∈ l₁ := fun p hm =>
    List.mem_dedup.mp (hp1.mem_iff.mp hm)
  have hmem2 : ∀ p ∈ emissionOrder rootStr l₂, p ∈ l₁ := fun p hm =>
    hperm.mem_iff.mpr (List.mem_dedup.mp (hp2.mem_iff.mp hm))
  have hs1 : (emissionOrder rootStr l₁).Pairwise (pathLE rootStr) :=
    emissionOrder_sorted rootStr l₁
  have hs2 : (emissionOrder rootStr l₂).Pairwise (pathLE rootStr) :=
    emissionOrder_sorted rootStr l₂
  have hs1' : (emissionOrder rootStr l₁).Pairwise (pathKeyLT rootStr) :=
    pairwise_imp_mem (pairwise_and hs1 hn1)
      (fun a ha b hb hr => ⟨hr.1, hinj a (hmem1 a ha) b (hmem1 b hb) hr.2⟩)
  have hs2' : (emissionOrder rootStr l₂).Pairwise (pathKeyLT rootStr) :=
    pairwise_imp_mem (pairwise_and hs2 hn2)
      (fun a ha b hb hr => ⟨hr.1, hinj a (hmem2 a ha) b (hmem2 b hb) hr.2⟩)
  haveI : IsAntisymm PathT (pathKeyLT rootStr) :=
    ⟨fun p q h1 h2 => absurd (lexLE_antisymm _ _ h1.1 h2.1) h1.2⟩
  exact List.eq_of_perm_of_sorted hp hs1' hs2'

/-- **C8 (amended)**: the document is the concatenation of title header,
tree section, per-file sections and optional stats footer, with the section
list generated from `snapshotFiles` — the deduplicated collected file list
sorted case-insensitively by full path — in order; every collected file
appears exactly once; the emission list is sorted by the case-insensitive
key; and the order is independent of the filesystem iteration order that
produced the collected list, provided no two distinct collected paths are
equal case-insensitively (the sort is stable, so tied keys follow the
collection order — see the counterexample). -/
theorem document_order_spec (o : Opts) (rootName rootStr : Text) (children : List FSTree) :
    build_snapshot o rootName rootStr children =
      strL "# Project Snapshot\n" ++ strL "## Directory Tree\n" ++ strL "```text\n" ++
        dir_tree_ascii o rootName children ++ strL "\n```\n\n" ++
        (((snapshotFiles o rootStr children).map (processFile o children)).filterMap
          (fun r => r.sec)).flatten ++ statsFooter o rootStr children
    ∧ snapshotFiles o rootStr children =
        List.insertionSort (pathLE rootStr) (walkDir o [] children).dedup
    ∧ (snapshotFiles o rootStr children).Sorted (pathLE rootStr)
    ∧ (snapshotFiles o rootStr children).Nodup
    ∧ (∀ p, p ∈ snapshotFiles o rootStr children ↔ p ∈ walkDir o [] children)
    ∧ (∀ l₁ l₂ : List PathT, l₁.Perm l₂ →
        (∀ p ∈ l₁, ∀ q ∈ l₁, p ≠ q → pathKey rootStr p ≠ pathKey rootStr q) →
        emissionOrder rootStr l₁ = emissionOrder rootStr l₂) := by
  have hperm : (snapshotFiles o rootStr children).Perm (walkDir o [] children).dedup :=
    List.perm_insertionSort _ _
  refine ⟨rfl, rfl, emissionOrder_sorted rootStr _, ?_, ?_, ?_⟩
  · exact hperm.nodup_iff.mpr (List.nodup_dedup _)
  · intro p
    rw [hperm.mem_iff, List.mem_dedup]
  · exact fun l₁ l₂ hp hinj => emissionOrder_perm_invariant rootStr l₁ l₂ hp hinj

/-- Witness for C8 at a concrete two-file tree with distinct keys: the
collected file appears once in the emission list, and swapping the
collection order does not change the emission order. -/
theorem document_order_spec_witness :
    (snapshotFiles defaultOpts (strL "/r")
        [FSTree.file (strL "b.py") [112] true,
          FSTree.file (strL "a.py") [113] true]).Nodup
    ∧ emissionOrder (strL "/r") [[strL "b.py"], [strL "a.py"]] =
        emissionOrder (strL "/r") [[strL "a.py"], [strL "b.py"]] := by
  have h := document_order_spec defaultOpts (strL "r") (strL "/r")
    [FSTree.file (strL "b.py") [112] true, FSTree.file (strL "a.py") [113] true]
  refine ⟨h.2.2.2.1, ?_⟩
  exact h.2.2.2.2.2 [[strL "b.py"], [strL "a.py"]] [[strL "a.py"], [strL "b.py"]]
    (List.Perm.swap _ _ _) (by decide)

set_option maxRecDepth 400000 in
/-- **C8 (counterexample)**: with two files whose full paths differ only by
case (`A.py` and `a.py`, equal lower-cased keys), swapping the filesystem
iteration order permutes the collected list but changes both the emission
order (the stable sort keeps tied keys in collection order) and the
document itself (the tree's stable sort does the same), so the claim's
unconditional iteration-order independence fails. -/
theorem document_order_counterexample :
    ([[strL "A.py"], [strL "a.py"]] : List PathT).Perm [[strL "a.py"], [strL "A.py"]]
    ∧ emissionOrder (strL "/r") [[strL "A.py"], [strL "a.py"]] ≠
        emissionOrder (strL "/r") [[strL "a.py"], [strL "A.py"]]
    ∧ build_snapshot defaultOpts (strL "r") (strL "/r")
        [FSTree.file (strL "A.py") [112] true, FSTree.file (strL "a.py") [113] true] ≠
      build_snapshot defaultOpts (strL "r") (strL "/r")
        [FSTree.file (strL "a.py") [113] true, FSTree.file (strL "A.py") [112] true] := by
  refine ⟨List.Perm.swap _ _ _, by decide, by decide⟩

/-- A root with two files whose names differ only by case, so the full-path
sort keys of line 284 collide case-insensitively. -/
def c9root : List FSTree :=
  [FSTree.file (strL "A.py") [112] true, FSTree.file (strL "a.py") [113] true]

set_option maxRecDepth 400000 in
/-- **C9 (counterexample)**: over the unchanged `c9root` with identical
default options and the same timestamp, two runs that differ only in the
iteration order their `set(files)` happens to produce — both orders shown
are permutations of the deduplicated collected list, so each occurs for
some process hash seed — write different document bytes: the stable sort
keeps the case-tied `A.py`/`a.py` sections in set order, so they swap.
Unconditional two-run byte-identity over an unchanged directory therefore
fails. -/
theorem document_two_run_counterexample :
    ([[strL "A.py"], [strL "a.py"]] : List PathT).Perm
        ((walkDir defaultOpts [] c9root).dedup)
    ∧ ([[strL "a.py"], [strL "A.py"]] : List PathT).Perm
        ((walkDir defaultOpts [] c9root).dedup)
    ∧ (runSnapshotSeeded defaultOpts (strL "r") (strL "/r") c9root
          [[strL "A.py"], [strL "a.py"]] (strL "snapshot") (strL "20260101")
          (strL "120000")).document ≠
      (runSnapshotSeeded defaultOpts (strL "r") (strL "/r") c9root
          [[strL "a.py"], [strL "A.py"]] (strL "snapshot") (strL "20260101")
          (strL "120000")).document := by
  have hwd : (walkDir defaultOpts [] c9root).dedup =
      [[strL "A.py"], [strL "a.py"]] := by decide
  refine ⟨by rw [hwd], by rw [hwd]; exact List.Perm.swap _ _ _, by decide⟩

/-- **C9 (amended)**: the assembled document is identical across two runs
over the unchanged tree with identical options — whatever set iteration
orders and timestamps the two processes see — provided no two distinct
collected paths are equal case-insensitively; the timestamp reaches only
the output filename, and the dedup order itself reproduces
`build_snapshot`. Without the proviso, case-tied sections follow the
process-dependent set iteration order (see the counterexample). -/
theorem document_two_run_determinism (o : Opts) (rootName rootStr : Text)
    (children : List FSTree) (label d1 t1 d2 t2 : Text) (so1 so2 : List PathT)
    (h1 : so1.Perm ((walkDir o [] children).dedup))
    (h2 : so2.Perm ((walkDir o [] children).dedup))
    (hinj : ∀ p ∈ so1, ∀ q ∈ so1, p ≠ q → pathKey rootStr p ≠ pathKey rootStr q) :
    (runSnapshotSeeded o rootName rootStr children so1 label d1 t1).document =
      (runSnapshotSeeded o rootName rootStr children so2 label d2 t2).document
    ∧ (runSnapshotSeeded o rootName rootStr children ((walkDir o [] children).dedup)
        label d1 t1).document = build_snapshot o rootName rootStr children
    ∧ (runSnapshotSeeded o rootName rootStr children so1 label d1 t1).outPath =
      formatDefaultTemplate label d1 t1 := by
  have hperm : so1.Perm so2 := h1.trans h2.symm
  have hnd1 : so1.Nodup := h1.nodup_iff.mpr (List.nodup_dedup _)
  have hnd2 : so2.Nodup := hperm.nodup_iff.mp hnd1
  have hsort := emissionOrder_perm_invariant rootStr so1 so2 hperm hinj
  unfold emissionOrder at hsort
  rw [List.dedup_eq_self.mpr hnd1, List.dedup_eq_self.mpr hnd2] at hsort
  refine ⟨?_, rfl, rfl⟩
  show build_snapshotSeeded o rootName rootStr children so1 =
    build_snapshotSeeded o rootName rootStr children so2
  unfold build_snapshotSeeded
  rw [hsort]

/-- A root with two files whose case-lowered full-path keys are distinct. -/
def w9root : List FSTree :=
  [FSTree.file (strL "a.py") [112] true, FSTree.file (strL "b.py") [113] true]

/-- Witness for C9 at a concrete no-ties tree: two runs with different set
iteration orders (both permutations of the deduplicated collected list) and
different timestamps produce the same document bytes. -/
theorem document_two_run_determinism_witness :
    (runSnapshotSeeded defaultOpts (strL "r") (strL "/r") w9root
        [[strL "b.py"], [strL "a.py"]] (strL "snapshot") (strL "20260101")
        (strL "110000")).document =
      (runSnapshotSeeded defaultOpts (strL "r") (strL "/r") w9root
        [[strL "a.py"], [strL "b.py"]] (strL "snapshot") (strL "20260102")
        (strL "120000")).document := by
  have hwd : (walkDir defaultOpts [] w9root).dedup =
      [[strL "a.py"], [strL "b.py"]] := by decide
  exact (document_two_run_determinism defaultOpts (strL "r") (strL "/r") w9root
    (strL "snapshot") (strL "20260101") (strL "110000") (strL "20260102") (strL "120000")
    [[strL "b.py"], [strL "a.py"]] [[strL "a.py"], [strL "b.py"]]
    (by rw [hwd]; exact List.Perm.swap _ _ _) (by rw [hwd])
    (by decide)).1

end Snapshot
